/-
  Verification of the check-pages verification pipeline (checkPages.js).

  This file gives a shallow embedding of the core of `checkPages.js`
  (the worklist scheduler, page checks, link checks with dedup / retry /
  hash verification, and the issue collector) and proves properties of it.

  Modelling conventions:
  * The HTTP client, the HTML parser (cheerio), the strict markup parser
    (sax), and the digest primitives are external collaborators.  They are
    modelled by an `Env` record: responses are looked up by request URI,
    a fetched page body is represented by its parsed element list and its
    list of strict-parse violations, and digests of a response body are
    a function of the hash algorithm carried by the response.
  * Machine integers do not occur; status codes and times are `Nat`.
  * Node's legacy `url` module (`url.parse`, `url.format`, `url.resolve`)
    is modelled by `urlParse` / `urlFormat` / `urlResolve` below on the
    subset of URL syntax the program manipulates.
  * Header names are lower-case keys, as Node's `res.headers` presents them.
-/
import Mathlib

namespace CheckPages

/-! ## ASCII string helpers (JS `toLowerCase` / `toUpperCase` on ASCII data) -/

/-- Lower-case the ASCII letters of a string (JS `String.prototype.toLowerCase`
on the ASCII strings this program handles: header values, hex digests, hosts). -/
def asciiLower (s : String) : String :=
  String.mk (s.toList.map Char.toLower)

/-- Upper-case the ASCII letters of a string (JS `String.prototype.toUpperCase`). -/
def asciiUpper (s : String) : String :=
  String.mk (s.toList.map Char.toUpper)

/-- Whether `t` occurs as an infix of the list `s`. -/
def listInfix (t : List Char) : List Char → Bool
  | [] => t.isEmpty
  | c :: rest => t.isPrefixOf (c :: rest) || listInfix t rest

/-- Whether `t` occurs as a substring of `s` (JS `RegExp.test` with a literal pattern). -/
def containsSub (s t : String) : Bool :=
  listInfix t.toList s.toList

/-- Decimal digit test (regex `\d`). -/
def isDig (c : Char) : Bool :=
  decide (Char.ofNat 48 ≤ c ∧ c ≤ Char.ofNat 57)

/-! ## Percent-encoding (JS `encodeURI` / `decodeURI`)

`encodeURI` leaves alphanumerics, the marks and the reserved characters
intact and percent-encodes the UTF-8 bytes of every other character;
`decodeURI` undoes this, failing on malformed sequences and leaving the
reserved characters' escapes in place (modulo the case of the hex digits,
which this model normalizes to upper case). -/

/-- The reserved set `;/?:@&=+$,` together with `#` (kept escaped by `decodeURI`). -/
def uriReserved (c : Char) : Bool :=
  [Char.ofNat 59, Char.ofNat 47, Char.ofNat 63, Char.ofNat 58, Char.ofNat 64,
   Char.ofNat 38, Char.ofNat 61, Char.ofNat 43, Char.ofNat 36, Char.ofNat 44,
   Char.ofNat 35].contains c

/-- Characters `encodeURI` leaves unescaped. -/
def uriUnescaped (c : Char) : Bool :=
  c.isAlphanum ||
  [Char.ofNat 45, Char.ofNat 95, Char.ofNat 46, Char.ofNat 33, Char.ofNat 126,
   Char.ofNat 42, Char.ofNat 39, Char.ofNat 40, Char.ofNat 41].contains c ||
  uriReserved c

/-- One hex digit, upper case. -/
def hexDigit (n : Nat) : Char :=
  if n < 10 then Char.ofNat (48 + n) else Char.ofNat (65 + (n - 10))

/-- A `%XX` escape (upper-case hex) for a byte. -/
def hexByte (b : Nat) : List Char :=
  [Char.ofNat 37, hexDigit (b / 16 % 16), hexDigit (b % 16)]

/-- UTF-8 bytes of a scalar value. -/
def utf8Bytes (n : Nat) : List Nat :=
  if n < 0x80 then [n]
  else if n < 0x800 then [0xC0 + n / 64, 0x80 + n % 64]
  else if n < 0x10000 then [0xE0 + n / 4096, 0x80 + n / 64 % 64, 0x80 + n % 64]
  else [0xF0 + n / 262144, 0x80 + n / 4096 % 64, 0x80 + n / 64 % 64, 0x80 + n % 64]

/-- JS `encodeURI`. -/
def encodeURI (s : String) : String :=
  String.mk (s.toList.flatMap fun c =>
    if uriUnescaped c then [c] else (utf8Bytes c.toNat).flatMap hexByte)

/-- Value of a hex digit character, if any. -/
def hexVal (c : Char) : Option Nat :=
  if isDig c then some (c.toNat - 48)
  else if Char.ofNat 65 ≤ c ∧ c ≤ Char.ofNat 70 then some (c.toNat - 55)
  else if Char.ofNat 97 ≤ c ∧ c ≤ Char.ofNat 102 then some (c.toNat - 87)
  else none

/-- A URI token: a literal character or a `%XX`-escaped byte. -/
inductive UriTok where
  | chr (c : Char)
  | byte (b : Nat)
deriving DecidableEq

/-- Split a character list into URI tokens; `none` on a malformed escape. -/
def uriTokens : List Char → Option (List UriTok)
  | [] => some []
  | c :: rest =>
    if c = Char.ofNat 37 then
      match rest with
      | h1 :: h2 :: rest2 =>
        match hexVal h1, hexVal h2 with
        | some a, some b =>
          match uriTokens rest2 with
          | some ts => some (UriTok.byte (a * 16 + b) :: ts)
          | none => none
        | _, _ => none
      | _ => none
    else
      match uriTokens rest with
      | some ts => some (UriTok.chr c :: ts)
      | none => none

/-- A scalar value usable as a `Char`. -/
def validScalar (n : Nat) : Bool :=
  decide (n < 0xD800) || decide (0xE000 ≤ n ∧ n < 0x110000)

/-- Reassemble URI tokens into characters, decoding UTF-8 byte sequences;
`none` on an invalid sequence.  Escapes that decode to a reserved character
stay in their escaped form, as `decodeURI` leaves them. -/
def uriDetokenize : List UriTok → Option (List Char)
  | [] => some []
  | UriTok.chr c :: rest =>
    match uriDetokenize rest with
    | some tl => some (c :: tl)
    | none => none
  | UriTok.byte b :: rest =>
    if b < 0x80 then
      let ch := Char.ofNat b
      match uriDetokenize rest with
      | some tl => some (if uriReserved ch then hexByte b ++ tl else ch :: tl)
      | none => none
    else if b < 0xC0 then none
    else if b < 0xE0 then
      match rest with
      | UriTok.byte b2 :: rest2 =>
        if 0x80 ≤ b2 ∧ b2 < 0xC0 then
          let n := (b - 0xC0) * 64 + (b2 - 0x80)
          if validScalar n then
            match uriDetokenize rest2 with
            | some tl => some (Char.ofNat n :: tl)
            | none => none
          else none
        else none
      | _ => none
    else if b < 0xF0 then
      match rest with
      | UriTok.byte b2 :: UriTok.byte b3 :: rest2 =>
        if (0x80 ≤ b2 ∧ b2 < 0xC0) ∧ (0x80 ≤ b3 ∧ b3 < 0xC0) then
          let n := (b - 0xE0) * 4096 + (b2 - 0x80) * 64 + (b3 - 0x80)
          if validScalar n then
            match uriDetokenize rest2 with
            | some tl => some (Char.ofNat n :: tl)
            | none => none
          else none
        else none
      | _ => none
    else if b < 0xF8 then
      match rest with
      | UriTok.byte b2 :: UriTok.byte b3 :: UriTok.byte b4 :: rest2 =>
        if (0x80 ≤ b2 ∧ b2 < 0xC0) ∧ (0x80 ≤ b3 ∧ b3 < 0xC0) ∧ (0x80 ≤ b4 ∧ b4 < 0xC0) then
          let n := (b - 0xF0) * 262144 + (b2 - 0x80) * 4096 + (b3 - 0x80) * 64 + (b4 - 0x80)
          if validScalar n then
            match uriDetokenize rest2 with
            | some tl => some (Char.ofNat n :: tl)
            | none => none
          else none
        else none
      | _ => none
    else none

/-- JS `decodeURI` (`none` models a thrown `URIError`). -/
def decodeURI (s : String) : Option String :=
  match uriTokens s.toList with
  | none => none
  | some ts =>
    match uriDetokenize ts with
    | some cs => some (String.mk cs)
    | none => none

/-! ## List-level string utilities

Everything below works on `List Char` so that all definitions evaluate by
kernel reduction on concrete inputs. -/

/-- Split a list at every occurrence of `c` (like `String.splitOn` with a
one-character separator). -/
def splitOnChar (c : Char) : List Char → List (List Char)
  | [] => [[]]
  | x :: rest =>
    let r := splitOnChar c rest
    if x = c then [] :: r
    else
      match r with
      | h :: t => (x :: h) :: t
      | [] => [[x]]

/-- Join lists with a separator. -/
def joinSep (sep : List Char) : List (List Char) → List Char
  | [] => []
  | [p] => p
  | p :: rest => p ++ sep ++ joinSep sep rest

/-- Split at the last occurrence of `c`: `(some before, after)` when present,
`(none, l)` otherwise. -/
def splitLastAt (c : Char) (l : List Char) : Option (List Char) × List Char :=
  if l.contains c then
    let after := (l.reverse.takeWhile (fun x => !(x = c))).reverse
    (some (l.take (l.length - after.length - 1)), after)
  else (none, l)

/-! ## Node's legacy `url` module (`url.parse`, `url.format`, `url.resolve`)

The model covers the URL shapes the program manipulates: an optional scheme,
an optional `//`-authority (with optional `auth@` and a lower-cased host),
then pathname, `?`-search and `#`-fragment.  As in Node, an empty fragment
parses as `hash = "#"` and an absent component is `none` (`null`). -/

structure ParsedUrl where
  protocol : Option String := none
  slashes : Bool := false
  auth : Option String := none
  host : Option String := none
  hostname : Option String := none
  pathname : Option String := none
  search : Option String := none
  hash : Option String := none
deriving DecidableEq

/-- Characters allowed in a scheme (Node's `protocolPattern` class `[a-z0-9.+-]`). -/
def protoChar (c : Char) : Bool :=
  c.isAlphanum || c = Char.ofNat 46 || c = Char.ofNat 43 || c = Char.ofNat 45

/-- Node `hostname`: the host without the port, and without the brackets of an
IPv6 literal. -/
def hostnameOfHost (h : String) : String :=
  match h.toList with
  | c :: rest =>
    if c = Char.ofNat 91 then String.mk (rest.takeWhile (fun x => !(x = Char.ofNat 93)))
    else String.mk ((c :: rest).takeWhile (fun x => !(x = Char.ofNat 58)))
  | [] => ""

/-- Model of Node's legacy `url.parse`. -/
def urlParse (s : String) : ParsedUrl :=
  let l := s.toList
  let p := l.takeWhile protoChar
  let hasProto := decide (p ≠ []) && decide ((l.drop p.length).head? = some (Char.ofNat 58))
  let protocol := if hasProto then some (asciiLower (String.mk p) ++ ":") else none
  let rest1 := if hasProto then l.drop (p.length + 1) else l
  let slashes := hasProto && decide (rest1.take 2 = [Char.ofNat 47, Char.ofNat 47])
  let rest2 := if slashes then rest1.drop 2 else rest1
  let authority :=
    if slashes then rest2.takeWhile (fun c => !(c = Char.ofNat 47 || c = Char.ofNat 63 || c = Char.ofNat 35))
    else []
  let rest3 := if slashes then rest2.drop authority.length else rest2
  let (authCs, hostport) := splitLastAt (Char.ofNat 64) authority
  let auth := if slashes then authCs.map String.mk else none
  let host := if slashes then some (asciiLower (String.mk hostport)) else none
  let hostname := host.map hostnameOfHost
  let pathCs := rest3.takeWhile (fun c => !(c = Char.ofNat 63 || c = Char.ofNat 35))
  let pathname := if pathCs = [] then none else some (String.mk pathCs)
  let rest4 := rest3.drop pathCs.length
  let searchCs := rest4.takeWhile (fun c => !(c = Char.ofNat 35))
  let search := if rest4.head? = some (Char.ofNat 63) then some (String.mk searchCs) else none
  let rest5 := rest4.drop searchCs.length
  let hash := if rest5.head? = some (Char.ofNat 35) then some (String.mk rest5) else none
  { protocol, slashes, auth, host, hostname, pathname, search, hash }

/-- Model of Node's legacy `url.format` on parsed values. -/
def urlFormat (u : ParsedUrl) : String :=
  (u.protocol.getD "") ++ (if u.slashes then "//" else "") ++
  (match u.auth with | some a => a ++ "@" | none => "") ++
  u.host.getD "" ++ u.pathname.getD "" ++ u.search.getD "" ++ u.hash.getD ""

/-- Model of `parsedLink.hash = null; url.format(parsedLink)`: the link with
its fragment stripped, used as the deduplication key. -/
def stripFragment (link : String) : String :=
  urlFormat { urlParse link with hash := none }

/-- Pop one path segment, protecting the leading root segment. -/
def popSeg : List (List Char) → List (List Char)
  | [] => []
  | [] :: t => [] :: t
  | _ :: t => t

/-- Remove `.` and `..` segments from a path (RFC 3986 §5.2.4, as
`url.resolve` normalizes the merged path). -/
def rdsAux : List (List Char) → List (List Char) → List (List Char)
  | [], acc => acc.reverse
  | [d], acc =>
    if d = [Char.ofNat 46] then ([] :: acc).reverse
    else if d = [Char.ofNat 46, Char.ofNat 46] then ([] :: popSeg acc).reverse
    else (d :: acc).reverse
  | d :: e :: rest, acc =>
    if d = [Char.ofNat 46] then rdsAux (e :: rest) acc
    else if d = [Char.ofNat 46, Char.ofNat 46] then rdsAux (e :: rest) (popSeg acc)
    else rdsAux (e :: rest) (d :: acc)

/-- The `removeDotSegments` operation on a textual path. -/
def removeDotSegments (p : String) : String :=
  String.mk (joinSep [Char.ofNat 47] (rdsAux (splitOnChar (Char.ofNat 47) p.toList) []))

/-- The directory part of a path: everything up to and including the last
slash (empty when the path has no slash). -/
def lastSlashDir (p : String) : String :=
  match splitOnChar (Char.ofNat 47) p.toList with
  | [] => ""
  | [_] => ""
  | parts => String.mk (joinSep [Char.ofNat 47] parts.dropLast ++ [Char.ofNat 47])

/-- Model of Node's `url.resolve(base, rel)`. -/
def urlResolve (base rel : String) : String :=
  let r := urlParse rel
  if r.protocol.isSome then rel
  else
    let b := urlParse base
    let proto := b.protocol.getD ""
    let authPart := match b.auth with | some a => a ++ "@" | none => ""
    let origin := proto ++ (if b.slashes then "//" else "") ++ authPart ++ b.host.getD ""
    if [Char.ofNat 47, Char.ofNat 47].isPrefixOf rel.toList then proto ++ rel
    else if rel.toList.head? = some (Char.ofNat 35) then urlFormat { b with hash := none } ++ rel
    else if rel.toList.head? = some (Char.ofNat 63) then
      urlFormat { b with search := none, hash := none } ++ rel
    else if rel = "" then urlFormat { b with hash := none }
    else if rel.toList.head? = some (Char.ofNat 47) then
      origin ++ removeDotSegments (r.pathname.getD "") ++ r.search.getD "" ++ r.hash.getD ""
    else
      let dir := lastSlashDir (b.pathname.getD "/")
      origin ++ removeDotSegments (dir ++ r.pathname.getD "") ++ r.search.getD "" ++ r.hash.getD ""

/-! ## Query-string parameters (`url.parse(link, true).query`)

Pairs split on `&` and on the first `=`.  (The model omits `querystring`'s
percent-decoding: the hash parameters the program reads are hex digests and
contain no escapes.  Duplicate keys resolve to the first occurrence.) -/

/-- Parse a query string (without its leading `?`) into key/value pairs. -/
def parseQueryString (q : String) : List (String × String) :=
  (splitOnChar (Char.ofNat 38) q.toList).filterMap fun kv =>
    if kv = [] then none
    else
      let k := kv.takeWhile (fun c => !(c = Char.ofNat 61))
      let rest := kv.drop k.length
      some (String.mk k, String.mk (rest.drop 1))

/-- Look up a query parameter of a link (`url.parse(link, true).query[k]`). -/
def queryParam (link k : String) : Option String :=
  match (urlParse link).search with
  | some s => ((parseQueryString (String.mk (s.toList.drop 1))).find? (fun p => p.1 = k)).map (fun p => p.2)
  | none => none

/-- A query parameter that is JS-truthy (`if (query.sha1)`): present and
not the empty string. -/
def truthyQueryParam (link k : String) : Option String :=
  match queryParam link k with
  | some v => if v = "" then none else some v
  | none => none

/-! ## The localhost detection regex

`/^(localhost)|(127\.\d\d?\d?\.\d\d?\d?\.\d\d?\d?)|(\[[0\:]*\:[0\:]*\:0?0?0?1\])$/i`

Note the anchoring: `^` binds only to the first alternative and `$` only to
the last, so the regex tests "starts with localhost", OR "contains
`127.` followed by three dot-separated runs of 1-3 digits", OR "ends with a
bracketed `[0:]*:[0:]*:0?0?0?1` group". -/

/-- Match 1-3 digits followed by a dot, then continue with `cont` on the
rest (regex `\d\d?\d?\.` with backtracking, expressed as an existential
over the number of digits consumed). -/
def seg13 (cont : List Char → Bool) (l : List Char) : Bool :=
  [1, 2, 3].any fun k =>
    decide (k ≤ l.length) && (l.take k).all isDig &&
    (match l.drop k with
     | c :: r => c = Char.ofNat 46 && cont r
     | [] => false)

/-- The final `\d\d?\d?` group: with nothing after it, one digit suffices. -/
def seg1plus (l : List Char) : Bool :=
  match l with
  | c :: _ => isDig c
  | [] => false

/-- The middle alternative matches at this position. -/
def ip127At (l : List Char) : Bool :=
  [Char.ofNat 49, Char.ofNat 50, Char.ofNat 55, Char.ofNat 46].isPrefixOf l &&
  seg13 (seg13 seg1plus) (l.drop 4)

/-- The middle (unanchored) alternative matches somewhere in the string. -/
def containsIp127 : List Char → Bool
  | [] => false
  | c :: rest => ip127At (c :: rest) || containsIp127 rest

/-- Whether `\[[0\:]*\:[0\:]*\:0?0?0?1\]` matches the whole of `t`.  The body
`[0:]*:[0:]*:` is equivalent to: a string over `{0,:}` that ends in `:` and
holds at least two `:`; then come up to three `0`s, a `1` and the bracket. -/
def bracketLoopback (t : List Char) : Bool :=
  match t with
  | c :: rest =>
    c = Char.ofNat 91 &&
    (match rest.reverse with
     | rb :: one :: revCore =>
       rb = Char.ofNat 93 && one = Char.ofNat 49 &&
       ([0, 1, 2, 3].any fun z =>
         decide (z ≤ revCore.length) &&
         (revCore.take z).all (fun x => x = Char.ofNat 48) &&
         (match revCore.drop z with
          | y0 :: ys =>
            y0 = Char.ofNat 58 &&
            (y0 :: ys).all (fun x => x = Char.ofNat 48 || x = Char.ofNat 58) &&
            decide (2 ≤ (y0 :: ys).count (Char.ofNat 58))
          | [] => false))
     | _ => false)
  | [] => false

/-- The last (`$`-anchored) alternative: some suffix of the string is a
full `bracketLoopback` match ending at the end. -/
def endsWithLoopback : List Char → Bool
  | [] => false
  | c :: rest => bracketLoopback (c :: rest) || endsWithLoopback rest

/-- The full localhost regex test, applied case-insensitively to a host
(`localhost.test(req.uri.host)`). -/
def localhostTest (host : String) : Bool :=
  let l := (asciiLower host).toList
  "localhost".toList.isPrefixOf l || containsIp127 l || endsWithLoopback l

/-! ## The recognized localhost forms, as the specification words them

These definitions follow the spec's words ("the name `localhost`, an address
in the `127.0.0.0/8` block, or a textual expansion of `::1`"), for
comparison against the code's regex; they are not translated from the
source. -/

/-- Numeric value of a digit run. -/
def natOfDigits (l : List Char) : Nat :=
  l.foldl (fun a c => a * 10 + (c.toNat - 48)) 0

/-- A decimal IPv4 octet: 1-3 digits, value at most 255. -/
def isOctet (l : List Char) : Bool :=
  decide (l ≠ []) && decide (l.length ≤ 3) && l.all isDig && decide (natOfDigits l ≤ 255)

/-- A textual IPv4 address in `127.0.0.0/8`. -/
def specIpv4In127 (host : String) : Bool :=
  match splitOnChar (Char.ofNat 46) host.toList with
  | [a, b, c, d] =>
    decide (a = [Char.ofNat 49, Char.ofNat 50, Char.ofNat 55]) &&
    isOctet a && isOctet b && isOctet c && isOctet d
  | _ => false

/-- A hex digit. -/
def isHexDig (c : Char) : Bool :=
  (hexVal c).isSome

/-- An IPv6 group of 1-4 hex digits, as a value. -/
def hexGroup (l : List Char) : Option Nat :=
  if l ≠ [] ∧ l.length ≤ 4 ∧ l.all isHexDig then
    some (l.foldl (fun a c => a * 16 + (hexVal c).getD 0) 0)
  else none

/-- Split at the first occurrence of `pat`, if any. -/
def splitFirstInfix (pat : List Char) : List Char → Option (List Char × List Char)
  | [] => if pat = [] then some ([], []) else none
  | c :: rest =>
    if pat.isPrefixOf (c :: rest) then some ([], (c :: rest).drop pat.length)
    else
      match splitFirstInfix pat rest with
      | some (b, a) => some (c :: b, a)
      | none => none

/-- The group values denoted by an IPv6 text (handling one `::`), if valid. -/
def ipv6Groups (l : List Char) : Option (List Nat) :=
  let colon := Char.ofNat 58
  match splitFirstInfix [colon, colon] l with
  | some (before, after) =>
    let gB := if before = [] then some [] else (splitOnChar colon before).mapM hexGroup
    let gA := if after = [] then some [] else (splitOnChar colon after).mapM hexGroup
    match gB, gA with
    | some b, some a =>
      if b.length + a.length ≤ 7 then
        some (b ++ List.replicate (8 - b.length - a.length) 0 ++ a)
      else none
    | _, _ => none
  | none =>
    match (splitOnChar colon l).mapM hexGroup with
    | some g => if g.length = 8 then some g else none
    | none => none

/-- A bracketed textual expansion of `::1`. -/
def specIpv6Loopback (host : String) : Bool :=
  match host.toList with
  | c :: rest =>
    c = Char.ofNat 91 && decide (rest.getLast? = some (Char.ofNat 93)) &&
    decide (ipv6Groups rest.dropLast = some [0, 0, 0, 0, 0, 0, 0, 1])
  | [] => false

/-- The recognized localhost forms of the specification: the name
`localhost`, an address in `127.0.0.0/8`, or a textual expansion of `::1`. -/
def specRecognizedLocalhost (host : String) : Bool :=
  asciiLower host = "localhost" || specIpv4In127 host || specIpv6Loopback host

/-! ## `fixNonAsciiLink` -/

/-- Model of `fixNonAsciiLink`: a link whose `path` (pathname plus search) is
all-ASCII is returned unchanged; otherwise pathname and query are passed
through `decodeURI` (a failure keeps the raw value, like the `try`/`catch`)
and re-encoded with `encodeURI`, and the URL is re-assembled by
`url.format`.  JS `decodeURI(null)` coerces `null` to the string `"null"`;
the model reproduces that coercion for absent components. -/
def fixNonAsciiLink (link : String) : String :=
  let parsed := urlParse link
  let path := (parsed.pathname.getD "") ++ (parsed.search.getD "")
  if path.toList.all (fun c => decide (c.toNat ≤ 0x7f)) then link
  else
    let pathname0 := parsed.pathname.getD "null"
    let query0 := match parsed.search with
      | some s => String.mk (s.toList.drop 1)
      | none => "null"
    let pathname1 := (decodeURI pathname0).getD pathname0
    let query1 := (decodeURI query0).getD query0
    let equery := encodeURI query1
    urlFormat { protocol := parsed.protocol, slashes := parsed.slashes,
                host := parsed.host, auth := parsed.auth,
                pathname := some (encodeURI pathname1),
                search := if equery = "" then none else some ("?" ++ equery),
                hash := parsed.hash }

/-! ## Data model: requests, responses, options, run state -/

/-- HTTP method of a link request (`useGetRequest ? 'GET' : 'HEAD'`). -/
inductive Method where
  | head
  | get
deriving DecidableEq

/-- Hash algorithms selected by the `sha1` / `md5` / `crc32` query parameters. -/
inductive HashAlg where
  | sha1
  | md5
  | crc32
deriving DecidableEq

/-- An element of the parsed page body (the HTML parser is an external
collaborator; the body is modelled already parsed, in document order). -/
structure Elem where
  tag : String
  attrs : List (String × String)
deriving DecidableEq

/-- Model of `$(this).attr(attribute)`. -/
def attrOf (e : Elem) (name : String) : Option String :=
  (e.attrs.find? (fun p => p.1 = name)).map (fun p => p.2)

/-- A transport-level error (`'error'` event), with its message and the
elapsed time at which it was observed. -/
structure ErrInfo where
  message : String
  elapsed : Nat
deriving DecidableEq

/-- Response to a link request.  `bodyDigest` gives the digest of the
response body under a hash algorithm (the digest primitive is an external
collaborator); `elapsed` is the time at the `'end'` event. -/
structure LinkResponse where
  statusCode : Nat
  headers : List (String × String)
  bodyDigest : HashAlg → String
  elapsed : Nat

/-- Response to a page fetch.  `href` is `res.request.href`, the final URL
after any redirects; `doc` is the body as parsed by the HTML parser and
`xhtmlViolations` the error messages of the strict markup parser on it. -/
structure PageResponse where
  statusCode : Nat
  headers : List (String × String)
  href : String
  doc : List Elem
  xhtmlViolations : List String
  elapsed : Nat

/-- The network/filesystem environment: responses keyed by request URI. -/
structure Env where
  pageGet : String → Except ErrInfo PageResponse
  linkReq : Method → String → Except ErrInfo LinkResponse

/-- The normalized options (the `RunConfiguration` after the validation and
`!!`-coercion block at the end of `checkPages.js`). -/
structure Options where
  checkLinks : Bool := false
  onlySameDomain : Bool := false
  noRedirects : Bool := false
  noLocalLinks : Bool := false
  noEmptyFragments : Bool := false
  queryHashes : Bool := false
  linksToIgnore : List String := []
  checkXhtml : Bool := false
  checkCaching : Bool := false
  checkCompression : Bool := false
  maxResponseTime : Option Nat := none
  summary : Bool := false
deriving DecidableEq

/-- The run's mutable state: the dedup list `testedLinks`, the issue list,
the `host.log` and `host.error` sinks, plus two observables of the model:
the trace of dispatched requests and the argument of the final `done`
callback. -/
structure RunState where
  testedLinks : List String := []
  issues : List (String × String) := []
  log : List String := []
  errors : List String := []
  requests : List (Method × String) := []
  doneResult : Option (Option String × Nat) := none
deriving DecidableEq

/-- The initial run state. -/
def initState : RunState := {}

/-- Model of `logPageError`: write to `host.error` and append a
`(page, message)` issue. -/
def logPageError (page message : String) (s : RunState) : RunState :=
  { s with errors := s.errors ++ [message], issues := s.issues ++ [(page, message)] }

/-- Look up a response header (names are lower-case keys, as in Node). -/
def getHeader (headers : List (String × String)) (name : String) : Option String :=
  (headers.find? (fun p => p.1 = name)).map (fun p => p.2)

/-- JS truthiness of a header value: present and not the empty string. -/
def jsTruthy (v : Option String) : Bool :=
  match v with
  | some s => s ≠ ""
  | none => false

/-- Model of `isLinkIgnored`: exact match against `options.linksToIgnore`. -/
def isLinkIgnored (opts : Options) (link : String) : Bool :=
  opts.linksToIgnore.any (fun linkToIgnore => linkToIgnore = link)

/-! ## The link check -/

/-- The expected hash of a link, when `queryHashes` is on: the first of the
`sha1`, `md5`, `crc32` query parameters that is (JS-)truthy, with its
algorithm. -/
def linkHashSpec (opts : Options) (link : String) : Option (HashAlg × String) :=
  if opts.queryHashes then
    match truthyQueryParam link "sha1" with
    | some v => some (HashAlg.sha1, v)
    | none =>
      match truthyQueryParam link "md5" with
      | some v => some (HashAlg.md5, v)
      | none =>
        match truthyQueryParam link "crc32" with
        | some v => some (HashAlg.crc32, v)
        | none => none
  else none

/-- One request attempt of `testLink`, from request construction to the
terminal event.  Returns the new state and whether the attempt ended in the
"retry HEAD request as GET" branch (`testLink(page, link, true)`), which
`testLinkDispatch` then performs; this unrolls the source's single level of
recursion. -/
def testLinkAttempt (opts : Options) (env : Env) (page link : String) (retry : Bool)
    (s : RunState) : RunState × Bool :=
  let hashSpec := linkHashSpec opts link
  let useGet := retry || opts.queryHashes
  let mthd := if useGet then Method.get else Method.head
  let uri := fixNonAsciiLink link
  let s1 := { s with requests := s.requests ++ [(mthd, uri)] }
  -- the `noLocalLinks` test runs synchronously right after the request is
  -- constructed (on `req.uri.host`), before any response or error event
  let s2 := if opts.noLocalLinks && localhostTest ((urlParse uri).host.getD "") then
              logPageError page ("Local link: " ++ link) s1
            else s1
  match env.linkReq mthd uri with
  | Except.error e =>
    (logPageError page ("Link error (" ++ e.message ++ "): " ++ link ++ " (" ++
       toString e.elapsed ++ "ms)") s2, false)
  | Except.ok res =>
    if 200 ≤ res.statusCode ∧ res.statusCode < 300 then
      let s3 := { s2 with log := s2.log ++ ["Link: " ++ link ++ " (" ++ toString res.elapsed ++ "ms)"] }
      match hashSpec with
      | some (alg, linkHash) =>
        let contentHash := res.bodyDigest alg
        if asciiUpper linkHash = asciiUpper contentHash then
          ({ s3 with log := s3.log ++ ["Hash: " ++ link] }, false)
        else
          (logPageError page ("Hash error (" ++ asciiLower contentHash ++ "): " ++ link) s3, false)
      | none => (s3, false)
    else if useGet then
      if (300 ≤ res.statusCode ∧ res.statusCode < 400) ∧ opts.noRedirects then
        -- `res.headers.location || '[Missing Location header]'`: JS `||`
        -- falls through to the marker for an absent *or empty* header value
        (logPageError page ("Redirected link (" ++ toString res.statusCode ++ "): " ++ link ++
           " -> " ++ (if jsTruthy (getHeader res.headers "location") then
             (getHeader res.headers "location").getD ""
           else "[Missing Location header]") ++
           " (" ++ toString res.elapsed ++ "ms)") s2, false)
      else
        (logPageError page ("Bad link (" ++ toString res.statusCode ++ "): " ++ link ++
           " (" ++ toString res.elapsed ++ "ms)") s2, false)
    else
      (s2, true)

/-- The request phase of `testLink` (everything after the dedup block): one
attempt, plus the single GET retry when a HEAD probe saw a non-2xx status. -/
def testLinkDispatch (opts : Options) (env : Env) (page link : String) (retry : Bool)
    (s : RunState) : RunState :=
  let ar := testLinkAttempt opts env page link retry s
  if ar.2 then (testLinkAttempt opts env page link true ar.1).1 else ar.1

/-- The callback returned by `testLink(page, link, retryWithGet)`: the
empty-fragment warning, the dedup check against `testedLinks` (skipped
entirely on a retry), then the request phase. -/
def testLinkRun (opts : Options) (env : Env) (page link : String) (retry : Bool)
    (s : RunState) : RunState :=
  if retry then testLinkDispatch opts env page link true s
  else
    -- warn for empty fragments (even when skipping)
    let s1 := if opts.noEmptyFragments && decide ((urlParse link).hash = some "#") then
                logPageError page ("Empty fragment: " ++ link) s
              else s
    let noHashLink := stripFragment link
    if noHashLink ∈ s1.testedLinks then
      { s1 with log := s1.log ++ ["Visited link: " ++ link] }
    else
      testLinkDispatch opts env page link false
        { s1 with testedLinks := s1.testedLinks ++ [noHashLink] }

/-! ## The page check -/

/-- The element/attribute pairs `testPage` walks to collect links
(`['a href', 'area href', ...]` in the source). -/
def linkElementAttributePairs : List (String × String) :=
  [("a", "href"), ("area", "href"), ("audio", "src"), ("embed", "src"),
   ("iframe", "src"), ("img", "src"), ("input", "src"), ("link", "href"),
   ("object", "data"), ("script", "src"), ("source", "src"), ("track", "src"),
   ("video", "src")]

/-- Model of `addLinks($, element, attribute, page, index)`: the resolved links of
every document-order occurrence of `<element attribute='*'/>` that pass the
scheme, same-domain and ignore-list filters.  (The source splices each
survivor into the worklist at the front, in order; the queue model appends
this list ahead of the remaining items.) -/
def addLinksFor (opts : Options) (doc : List Elem) (element attrName page : String) :
    List String :=
  let pageHostname := (urlParse page).hostname
  (doc.filter (fun e => e.tag = element)).filterMap fun e =>
    match attrOf e attrName with
    | some link =>
      if link ≠ "" then    -- JS `if (link)`: an empty attribute is falsy
        let resolvedLink := urlResolve page link
        let parsedLink := urlParse resolvedLink
        if (decide (parsedLink.protocol = some "http:") ||
            decide (parsedLink.protocol = some "https:") ||
            decide (parsedLink.protocol = some "file:")) &&
           (!opts.onlySameDomain || decide (parsedLink.hostname = pageHostname)) &&
           !isLinkIgnored opts resolvedLink then
          some resolvedLink
        else none
      else none
    | none => none

/-- All links extracted from a page body, in worklist order. -/
def extractLinks (opts : Options) (doc : List Elem) (page : String) : List String :=
  linkElementAttributePairs.flatMap fun pr => addLinksFor opts doc pr.1 pr.2 page

/-- Model of `error.message.replace(/\n/g, ', ')`. -/
def replaceNewlines (v : String) : String :=
  String.mk (v.toList.flatMap fun c =>
    if c = Char.ofNat 10 then [Char.ofNat 44, Char.ofNat 32] else [c])

/-- The fixed Cache-Control directive vocabulary test
(`/max-age|max-stale|.../.test(cacheControl)`, substring semantics). -/
def ccVocab (cc : String) : Bool :=
  ["max-age", "max-stale", "min-fresh", "must-revalidate", "no-cache", "no-store",
   "no-transform", "only-if-cached", "private", "proxy-revalidate", "public",
   "s-maxage"].any (containsSub cc)

/-- The test `/no-cache|max-age=0/.test(cacheControl)`: explicitly
non-cacheable. -/
def ccNoCache (cc : String) : Bool :=
  containsSub cc "no-cache" || containsSub cc "max-age=0"

/-- The ETag shape test `/^(W\/)?\"[^\"]*\"$/`. -/
def etagValid (e : String) : Bool :=
  let l0 := e.toList
  let l := if [Char.ofNat 87, Char.ofNat 47].isPrefixOf l0 then l0.drop 2 else l0
  match l with
  | c :: rest =>
    c = Char.ofNat 34 && decide (rest ≠ []) &&
    decide (rest.getLast? = some (Char.ofNat 34)) &&
    rest.dropLast.all (fun x => !(x = Char.ofNat 34))
  | [] => false

/-- The callback returned by `testPage(page)`: fetch the page, classify the
outcome, run the enabled per-page checks, and return the `(page, link)`
pairs to splice ahead of the remaining worklist.  `logError` was bound
before the redirect update, so page-level issues stay attributed to the
original page URL, while links are resolved against (and attributed to) the
effective post-redirect URL. -/
def testPageRun (opts : Options) (env : Env) (page : String) (s : RunState) :
    RunState × List (String × String) :=
  match env.pageGet (fixNonAsciiLink page) with
  | Except.error e =>
    (logPageError page ("Page error (" ++ e.message ++ "): " ++ page ++ " (" ++
       toString e.elapsed ++ "ms)") s, [])
  | Except.ok res =>
    if res.statusCode < 200 ∨ 300 ≤ res.statusCode then
      (logPageError page ("Bad page (" ++ toString res.statusCode ++ "): " ++ page ++
         " (" ++ toString res.elapsed ++ "ms)") s, [])
    else
      let s1 := if page = res.href then
          { s with log := s.log ++ ["Page: " ++ page ++ " (" ++ toString res.elapsed ++ "ms)"] }
        else
          { s with log := s.log ++ ["Page: " ++ page ++ " -> " ++ res.href ++ " (" ++
              toString res.elapsed ++ "ms)"] }
      -- `page = res.request.href` after the redirect update (a no-op when equal)
      let effPage := res.href
      let links := if opts.checkLinks then extractLinks opts res.doc effPage else []
      let s2 := if opts.checkXhtml then
          res.xhtmlViolations.foldl (fun st v => logPageError page (replaceNewlines v) st) s1
        else s1
      let s3 := match opts.maxResponseTime with
        | some m => if m < res.elapsed then
            logPageError page ("Page response took more than " ++ toString m ++
              "ms to complete") s2
          else s2
        | none => s2
      let s4 := if opts.checkCaching then
          let cacheControl := getHeader res.headers "cache-control"
          let s4a := if jsTruthy cacheControl then
              if !ccVocab (cacheControl.getD "") then
                logPageError page ("Invalid Cache-Control header in response: " ++
                  cacheControl.getD "") s3
              else s3
            else logPageError page "Missing Cache-Control header in response" s3
          let etag := getHeader res.headers "etag"
          if jsTruthy etag then
            if !etagValid (etag.getD "") then
              logPageError page ("Invalid ETag header in response: " ++ etag.getD "") s4a
            else s4a
          -- don't require ETag for responses that won't be cached
          else if !jsTruthy cacheControl || !ccNoCache (cacheControl.getD "") then
            logPageError page "Missing ETag header in response" s4a
          else s4a
        else s3
      let s5 := if opts.checkCompression then
          let contentEncoding := getHeader res.headers "content-encoding"
          if jsTruthy contentEncoding then
            if !(decide (contentEncoding = some "deflate") ||
                 decide (contentEncoding = some "gzip")) then
              logPageError page ("Invalid Content-Encoding header in response: " ++
                contentEncoding.getD "") s4
            else s4
          else logPageError page "Missing Content-Encoding header in response" s4
        else s4
      (s5, links.map (fun l => (effPage, l)))

/-! ## The issue collector and the worklist -/

/-- One step of the summary accumulation: emit the page heading on a page
change, then the indented message. -/
def summaryStep (acc : String × Option String) (issue : String × String) :
    String × Option String :=
  let acc1 := if acc.2 = some issue.1 then acc.1 else acc.1 ++ " " ++ issue.1 ++ "\n"
  (acc1 ++ "  " ++ issue.2 ++ "\n", some issue.1)

/-- The rendered summary, grouping issues by page in first-seen order. -/
def summaryText (issues : List (String × String)) : String :=
  (issues.foldl summaryStep ("Summary of issues:\n", none)).1

/-- The queued `done` callback: render the summary if requested and deliver
`done(err, issueCount)` (recorded in `doneResult`). -/
def finalize (opts : Options) (s : RunState) : RunState :=
  let issueCount := s.issues.length
  if issueCount ≠ 0 then
    let s1 := if opts.summary then { s with errors := s.errors ++ [summaryText s.issues] } else s
    let err := toString issueCount ++ " issue" ++ (if 1 < issueCount then "s" else "") ++ "." ++
               (if opts.summary then "" else " (Set options.summary for a summary.)")
    { s1 with doneResult := some (some err, issueCount) }
  else { s with doneResult := some (none, issueCount) }

/-- An entry of `pendingCallbacks`: a page check, a link check (queued link
checks always carry `retryWithGet = false`; the GET retry happens inside the
link check, not through the queue), or the final `done` callback. -/
inductive WorkItem where
  | page (url : String)
  | link (page link : String)
  | final
deriving DecidableEq

/-- The `(page, link)` pairs a page check splices into the worklist
(independent of the run state, which link extraction never reads). -/
def pageLinkPairs (opts : Options) (env : Env) (page : String) : List (String × String) :=
  (testPageRun opts env page initState).2

/-- Worklist weight: a page weighs one plus the links it will splice, any
other item weighs one.  Each queue step consumes exactly one unit, so this
is the exact number of steps needed to drain a worklist. -/
def itemWeight (opts : Options) (env : Env) : WorkItem → Nat
  | WorkItem.page p => 1 + (pageLinkPairs opts env p).length
  | _ => 1

/-- Total weight of a worklist. -/
def queueWeight (opts : Options) (env : Env) (q : List WorkItem) : Nat :=
  (q.map (itemWeight opts env)).sum

/-- The result of draining the worklist: the final state, the trace of
processed items in processing order, and how many times the `done` callback
ran. -/
structure RunResult where
  state : RunState
  trace : List WorkItem
  finals : Nat
deriving DecidableEq

/-- Model of `next()`, with an explicit step budget: repeatedly shift the front
callback and invoke it.  A page check splices its link checks ahead of all
remaining items; link checks and the `done` callback splice nothing. -/
def runQueueF (opts : Options) (env : Env) : Nat → List WorkItem → RunState → RunResult
  | 0, _, s => ⟨s, [], 0⟩
  | _ + 1, [], s => ⟨s, [], 0⟩
  | n + 1, WorkItem.page p :: rest, s =>
    let pr := testPageRun opts env p s
    let r := runQueueF opts env n (pr.2.map (fun pl => WorkItem.link pl.1 pl.2) ++ rest) pr.1
    ⟨r.state, WorkItem.page p :: r.trace, r.finals⟩
  | n + 1, WorkItem.link pg l :: rest, s =>
    let r := runQueueF opts env n rest (testLinkRun opts env pg l false s)
    ⟨r.state, WorkItem.link pg l :: r.trace, r.finals⟩
  | n + 1, WorkItem.final :: rest, s =>
    let r := runQueueF opts env n rest (finalize opts s)
    ⟨r.state, WorkItem.final :: r.trace, r.finals + 1⟩

/-- Drain a worklist (the budget `queueWeight` is exactly the number of
steps the drain takes). -/
def runQueue (opts : Options) (env : Env) (q : List WorkItem) (s : RunState) : RunResult :=
  runQueueF opts env (queueWeight opts env q) q s

/-- The initial worklist: one page check per configured page URL, then the
`done` callback. -/
def initialQueue (pages : List String) : List WorkItem :=
  pages.map WorkItem.page ++ [WorkItem.final]

/-- The whole run: drain the initial worklist from the initial state. -/
def checkPagesRun (opts : Options) (env : Env) (pages : List String) : RunResult :=
  runQueue opts env (initialQueue pages) initState

/-! ## Concrete environments (for exercising the model on closed inputs) -/

/-- An environment whose every link request gets the same response and whose
page fetches fail. -/
def constLinkEnv (r : LinkResponse) : Env :=
  ⟨fun _ => Except.error ⟨"refused", 0⟩, fun _ _ => Except.ok r⟩

/-- An environment answering HEAD and GET link requests with two fixed
responses; page fetches fail. -/
def headGetEnv (rh rg : LinkResponse) : Env :=
  ⟨fun _ => Except.error ⟨"refused", 0⟩,
   fun m _ => match m with
     | Method.head => Except.ok rh
     | Method.get => Except.ok rg⟩

/-- An environment whose every page fetch gets the same response and whose
link requests fail. -/
def constPageEnv (r : PageResponse) : Env :=
  ⟨fun _ => Except.ok r, fun _ _ => Except.error ⟨"refused", 0⟩⟩

/-! ## Structural lemmas -/

/-- The links spliced by a page check do not depend on the incoming state. -/
theorem testPageRun_snd (opts : Options) (env : Env) (page : String) (s : RunState) :
    (testPageRun opts env page s).2 = pageLinkPairs opts env page := by
  unfold pageLinkPairs testPageRun
  cases env.pageGet (fixNonAsciiLink page) with
  | error e => rfl
  | ok res => by_cases h : res.statusCode < 200 ∨ 300 ≤ res.statusCode <;> simp [h]

/-- Link items contribute their count to the worklist weight. -/
theorem queueWeight_links (opts : Options) (env : Env) (pairs : List (String × String))
    (rest : List WorkItem) :
    (List.map (itemWeight opts env)
        (List.map (fun pl => WorkItem.link pl.1 pl.2) pairs ++ rest)).sum =
      pairs.length + (List.map (itemWeight opts env) rest).sum := by
  induction pairs with
  | nil => simp
  | cons p ps ih =>
    simp only [List.map_cons, List.cons_append, List.sum_cons, List.append_eq,
      List.length_cons, itemWeight] at ih ⊢
    omega

/-! ## Structural lemmas about the link check -/

/-- A single attempt never touches the dedup list. -/
theorem testLinkAttempt_testedLinks (opts : Options) (env : Env) (page link : String)
    (retry : Bool) (s : RunState) :
    (testLinkAttempt opts env page link retry s).1.testedLinks = s.testedLinks := by
  simp only [testLinkAttempt]
  repeat' split
  all_goals simp [logPageError]

/-- A single attempt appends exactly one request: GET in full mode
(a retry or `queryHashes`), HEAD otherwise. -/
theorem testLinkAttempt_requests (opts : Options) (env : Env) (page link : String)
    (retry : Bool) (s : RunState) :
    (testLinkAttempt opts env page link retry s).1.requests =
      s.requests ++ [((if retry || opts.queryHashes then Method.get else Method.head),
        fixNonAsciiLink link)] := by
  simp only [testLinkAttempt]
  repeat' split
  all_goals simp [logPageError]

/-- An attempt already in full mode never asks for a retry. -/
theorem testLinkAttempt_full_no_again (opts : Options) (env : Env) (page link : String)
    (retry : Bool) (s : RunState) (h : (retry || opts.queryHashes) = true) :
    (testLinkAttempt opts env page link retry s).2 = false := by
  simp only [testLinkAttempt]
  repeat' split
  all_goals simp_all

/-- The dispatch phase never touches the dedup list. -/
theorem testLinkDispatch_testedLinks (opts : Options) (env : Env) (page link : String)
    (retry : Bool) (s : RunState) :
    (testLinkDispatch opts env page link retry s).testedLinks = s.testedLinks := by
  simp only [testLinkDispatch]
  split
  · rw [testLinkAttempt_testedLinks, testLinkAttempt_testedLinks]
  · rw [testLinkAttempt_testedLinks]

/-- Two appends are unequal when their (long enough) left parts disagree in
the first three characters. -/
theorem string_ne_of_take3 (a b x y : String) (ha : 3 ≤ a.length) (hb : 3 ≤ b.length)
    (h : a.data.take 3 ≠ b.data.take 3) : a ++ x ≠ b ++ y := by
  intro he
  apply h
  have hd := congrArg String.data he
  rw [String.data_append, String.data_append] at hd
  calc a.data.take 3 = (a.data ++ x.data).take 3 := (List.take_append_of_le_length ha).symm
    _ = (b.data ++ y.data).take 3 := by rw [hd]
    _ = b.data.take 3 := List.take_append_of_le_length hb

/-- A "Local link" message never coincides with a "Link error" message. -/
theorem local_ne_linkerr (x y : String) : ("Local link: " ++ x = "Link error (" ++ y) ↔ False :=
  iff_false_intro (string_ne_of_take3 _ _ _ _ (by decide) (by decide) (by decide))

/-- A "Local link" message never coincides with a "Hash error" message. -/
theorem local_ne_hasherr (x y : String) : ("Local link: " ++ x = "Hash error (" ++ y) ↔ False :=
  iff_false_intro (string_ne_of_take3 _ _ _ _ (by decide) (by decide) (by decide))

/-- A "Local link" message never coincides with a "Redirected link" message. -/
theorem local_ne_redirect (x y : String) :
    ("Local link: " ++ x = "Redirected link (" ++ y) ↔ False :=
  iff_false_intro (string_ne_of_take3 _ _ _ _ (by decide) (by decide) (by decide))

/-- A "Local link" message never coincides with a "Bad link" message. -/
theorem local_ne_bad (x y : String) : ("Local link: " ++ x = "Bad link (" ++ y) ↔ False :=
  iff_false_intro (string_ne_of_take3 _ _ _ _ (by decide) (by decide) (by decide))

/-- A "Local link" message never coincides with an "Empty fragment" message. -/
theorem local_ne_emptyfrag (x y : String) :
    ("Local link: " ++ x = "Empty fragment: " ++ y) ↔ False :=
  iff_false_intro (string_ne_of_take3 _ _ _ _ (by decide) (by decide) (by decide))

/-- Membership of the "Local link" issue after one attempt: it is there
exactly when it was already there or the local-link policy is on and the
request host matches the localhost regex — independently of the response. -/
theorem testLinkAttempt_local_mem (opts : Options) (env : Env) (page link : String)
    (retry : Bool) (s : RunState) :
    ((page, "Local link: " ++ link) ∈ (testLinkAttempt opts env page link retry s).1.issues) ↔
      ((page, "Local link: " ++ link) ∈ s.issues ∨
        (opts.noLocalLinks = true ∧
          localhostTest ((urlParse (fixNonAsciiLink link)).host.getD "") = true)) := by
  simp only [testLinkAttempt]
  repeat' split
  all_goals
    simp_all [logPageError, List.mem_append, String.append_assoc, local_ne_linkerr,
      local_ne_hasherr, local_ne_redirect, local_ne_bad]

/-- Membership of the "Local link" issue after the dispatch phase (the
retry attempt, when taken, reports the same condition). -/
theorem testLinkDispatch_local_mem (opts : Options) (env : Env) (page link : String)
    (retry : Bool) (s : RunState) :
    ((page, "Local link: " ++ link) ∈ (testLinkDispatch opts env page link retry s).issues) ↔
      ((page, "Local link: " ++ link) ∈ s.issues ∨
        (opts.noLocalLinks = true ∧
          localhostTest ((urlParse (fixNonAsciiLink link)).host.getD "") = true)) := by
  cases h : (testLinkAttempt opts env page link retry s).2 with
  | true =>
    simp only [testLinkDispatch, h, if_true]
    rw [testLinkAttempt_local_mem, testLinkAttempt_local_mem, or_assoc, or_self]
  | false =>
    simp only [testLinkDispatch, h, Bool.false_eq_true, if_false]
    exact testLinkAttempt_local_mem opts env page link retry s

/-- The dispatch phase appends at least the first request: its method, and
the request URI obtained from the link. -/
theorem testLinkDispatch_requests_first (opts : Options) (env : Env) (page link : String)
    (retry : Bool) (s : RunState) :
    (s.requests ++ [((if retry || opts.queryHashes then Method.get else Method.head),
        fixNonAsciiLink link)]) <+:
      (testLinkDispatch opts env page link retry s).requests := by
  cases h : (testLinkAttempt opts env page link retry s).2 with
  | true =>
    simp only [testLinkDispatch, h, if_true]
    rw [testLinkAttempt_requests, testLinkAttempt_requests]
    exact List.prefix_append ..
  | false =>
    simp only [testLinkDispatch, h, Bool.false_eq_true, if_false]
    rw [testLinkAttempt_requests]

/-! ## Claim C1 -/

/-- C1: the deduplication list of fragment-stripped link URLs only grows.
A link check (not a GET retry) whose fragment-stripped URL is already in
the list logs a "Visited link" notice and terminates immediately: the
dedup list, the request trace and — beyond the pre-dedup empty-fragment
policy Issue — the issue list are untouched.  A first-time target is
inserted into the list before its request is dispatched (the state handed
to the dispatch phase already carries the insertion, and the request is
then issued). -/
theorem c1_dedup_at_most_once (opts : Options) (env : Env) (page link : String)
    (retry : Bool) (s : RunState) :
    (s.testedLinks <+: (testLinkRun opts env page link retry s).testedLinks) ∧
    (retry = false → stripFragment link ∈ s.testedLinks →
      testLinkRun opts env page link retry s =
        { s with
          issues := s.issues ++
            (if opts.noEmptyFragments && decide ((urlParse link).hash = some "#") then
              [(page, "Empty fragment: " ++ link)] else []),
          errors := s.errors ++
            (if opts.noEmptyFragments && decide ((urlParse link).hash = some "#") then
              ["Empty fragment: " ++ link] else []),
          log := s.log ++ ["Visited link: " ++ link] }) ∧
    (retry = false → stripFragment link ∉ s.testedLinks →
      testLinkRun opts env page link retry s =
        testLinkDispatch opts env page link false
          { s with
            testedLinks := s.testedLinks ++ [stripFragment link],
            issues := s.issues ++
              (if opts.noEmptyFragments && decide ((urlParse link).hash = some "#") then
                [(page, "Empty fragment: " ++ link)] else []),
            errors := s.errors ++
              (if opts.noEmptyFragments && decide ((urlParse link).hash = some "#") then
                ["Empty fragment: " ++ link] else []) } ∧
      (s.requests ++ [((if opts.queryHashes then Method.get else Method.head),
          fixNonAsciiLink link)]) <+:
        (testLinkRun opts env page link retry s).requests ∧
      (testLinkRun opts env page link retry s).testedLinks =
        s.testedLinks ++ [stripFragment link]) := by
  refine ⟨?_, ?_, ?_⟩
  · cases retry with
    | true =>
      simp only [testLinkRun, if_true]
      rw [testLinkDispatch_testedLinks]
    | false =>
      simp only [testLinkRun, Bool.false_eq_true, if_false]
      by_cases hef : (opts.noEmptyFragments && decide ((urlParse link).hash = some "#")) = true <;>
        simp only [hef, Bool.false_eq_true, if_true, if_false, logPageError] <;>
        by_cases hmem : stripFragment link ∈ s.testedLinks <;>
        simp only [hmem, if_true, if_false, testLinkDispatch_testedLinks] <;>
        first
          | exact List.prefix_refl _
          | exact List.prefix_append ..
  · intro hr hmem
    subst hr
    simp only [testLinkRun, Bool.false_eq_true, if_false]
    by_cases hef : (opts.noEmptyFragments && decide ((urlParse link).hash = some "#")) = true <;>
      simp [hef, logPageError, hmem]
  · intro hr hnmem
    subst hr
    have h1 : testLinkRun opts env page link false s =
        testLinkDispatch opts env page link false
          { s with
            testedLinks := s.testedLinks ++ [stripFragment link],
            issues := s.issues ++
              (if opts.noEmptyFragments && decide ((urlParse link).hash = some "#") then
                [(page, "Empty fragment: " ++ link)] else []),
            errors := s.errors ++
              (if opts.noEmptyFragments && decide ((urlParse link).hash = some "#") then
                ["Empty fragment: " ++ link] else []) } := by
      simp only [testLinkRun, Bool.false_eq_true, if_false]
      by_cases hef : (opts.noEmptyFragments && decide ((urlParse link).hash = some "#")) = true <;>
        simp [hef, logPageError, hnmem]
    refine ⟨h1, ?_, ?_⟩
    · rw [h1]
      simpa [Bool.false_or] using
        testLinkDispatch_requests_first opts env page link false
          { s with
            testedLinks := s.testedLinks ++ [stripFragment link],
            issues := s.issues ++
              (if opts.noEmptyFragments && decide ((urlParse link).hash = some "#") then
                [(page, "Empty fragment: " ++ link)] else []),
            errors := s.errors ++
              (if opts.noEmptyFragments && decide ((urlParse link).hash = some "#") then
                ["Empty fragment: " ++ link] else []) }
    · rw [h1, testLinkDispatch_testedLinks]

/-! ## More structural lemmas -/

/-- An attempt only appends to the issue list. -/
theorem testLinkAttempt_issues_mono (opts : Options) (env : Env) (page link : String)
    (retry : Bool) (s : RunState) :
    s.issues <+: (testLinkAttempt opts env page link retry s).1.issues := by
  simp only [testLinkAttempt]
  repeat' split
  all_goals simp [logPageError, List.append_assoc, List.prefix_append]

/-- The dispatch phase only appends to the issue list. -/
theorem testLinkDispatch_issues_mono (opts : Options) (env : Env) (page link : String)
    (retry : Bool) (s : RunState) :
    s.issues <+: (testLinkDispatch opts env page link retry s).issues := by
  cases h : (testLinkAttempt opts env page link retry s).2 with
  | true =>
    simp only [testLinkDispatch, h, if_true]
    exact (testLinkAttempt_issues_mono opts env page link retry s).trans
      (testLinkAttempt_issues_mono opts env page link true _)
  | false =>
    simp only [testLinkDispatch, h, Bool.false_eq_true, if_false]
    exact testLinkAttempt_issues_mono opts env page link retry s

/-- When the attempt does not ask for a retry, the dispatch phase is that
single attempt. -/
theorem testLinkDispatch_no_again (opts : Options) (env : Env) (page link : String)
    (retry : Bool) (s : RunState) (h : (testLinkAttempt opts env page link retry s).2 = false) :
    testLinkDispatch opts env page link retry s = (testLinkAttempt opts env page link retry s).1 := by
  simp [testLinkDispatch, h]

/-- A present hash specification implies `queryHashes` is on. -/
theorem linkHashSpec_some_queryHashes (opts : Options) (link : String)
    (x : HashAlg × String) (h : linkHashSpec opts link = some x) :
    opts.queryHashes = true := by
  cases hq : opts.queryHashes with
  | true => rfl
  | false => simp [linkHashSpec, hq] at h

/-! ## Claim C9 -/

/-- C9: with `noEmptyFragments` on, a link check that is not a GET retry
and whose target's fragment is exactly `#` records an "Empty fragment"
Issue — for every incoming state, hence regardless of deduplication status
(also when the link is then skipped as already visited). -/
theorem c9_empty_fragment_issue (opts : Options) (env : Env) (page link : String)
    (s : RunState) (h1 : opts.noEmptyFragments = true)
    (h2 : (urlParse link).hash = some "#") :
    (page, "Empty fragment: " ++ link) ∈ (testLinkRun opts env page link false s).issues := by
  simp only [testLinkRun, Bool.false_eq_true, if_false]
  have hef : (opts.noEmptyFragments && decide ((urlParse link).hash = some "#")) = true := by
    simp [h1, h2]
  simp only [hef, if_true]
  have hmem : (page, "Empty fragment: " ++ link) ∈
      (logPageError page ("Empty fragment: " ++ link) s).issues := by
    simp [logPageError]
  split
  · exact hmem
  · exact (testLinkDispatch_issues_mono opts env page link false _).subset hmem

/-- C9 witness: a concrete link with an empty fragment, checked while its
fragment-stripped form is already in the dedup list, still records the
Issue. -/
theorem c9_empty_fragment_issue_witness :
    ({ noEmptyFragments := true } : Options).noEmptyFragments = true ∧
    (urlParse "http://example.com/a#").hash = some "#" ∧
    ("p", "Empty fragment: " ++ "http://example.com/a#") ∈
      (testLinkRun { noEmptyFragments := true } (constLinkEnv ⟨200, [], fun _ => "", 1⟩)
        "p" "http://example.com/a#" false
        { testedLinks := ["http://example.com/a"] }).issues :=
  ⟨rfl, by decide,
    c9_empty_fragment_issue { noEmptyFragments := true } (constLinkEnv ⟨200, [], fun _ => "", 1⟩)
      "p" "http://example.com/a#" { testedLinks := ["http://example.com/a"] } rfl (by decide)⟩

/-! ## Claim C10 -/

/-- C10: with `queryHashes` on, a link check never issues a HEAD probe:
either it is skipped as already visited (no request at all) or it issues
exactly one GET request — also when the link carries none of the `sha1`,
`md5`, `crc32` parameters, and for retries alike.  Hash verification can
therefore never co-occur with a probe-only request. -/
theorem c10_queryHashes_forces_get (opts : Options) (env : Env) (page link : String)
    (retry : Bool) (s : RunState) (h : opts.queryHashes = true) :
    (testLinkRun opts env page link retry s).requests = s.requests ∨
    (testLinkRun opts env page link retry s).requests =
      s.requests ++ [(Method.get, fixNonAsciiLink link)] := by
  have hfull : ∀ r : Bool, (r || opts.queryHashes) = true := by simp [h]
  have hagain : ∀ (r : Bool) (st : RunState),
      (testLinkAttempt opts env page link r st).2 = false :=
    fun r st => testLinkAttempt_full_no_again opts env page link r st (hfull r)
  cases retry with
  | true =>
    right
    simp only [testLinkRun, if_true]
    rw [testLinkDispatch_no_again opts env page link true s (hagain true s),
      testLinkAttempt_requests]
    simp [h]
  | false =>
    simp only [testLinkRun, Bool.false_eq_true, if_false]
    by_cases hef : (opts.noEmptyFragments && decide ((urlParse link).hash = some "#")) = true <;>
      simp only [hef, Bool.false_eq_true, if_true, if_false, logPageError] <;>
      by_cases hmem : stripFragment link ∈ s.testedLinks <;>
      simp only [hmem, if_true, if_false]
    · left; trivial
    · right
      rw [testLinkDispatch_no_again opts env page link false _ (hagain false _),
        testLinkAttempt_requests]
      simp [h]
    · left; trivial
    · right
      rw [testLinkDispatch_no_again opts env page link false _ (hagain false _),
        testLinkAttempt_requests]
      simp [h]

/-- C10 witness: with `queryHashes` on, a hash-less fresh link issues
exactly one GET request. -/
theorem c10_queryHashes_forces_get_witness :
    ({ queryHashes := true } : Options).queryHashes = true ∧
    ((testLinkRun { queryHashes := true } (constLinkEnv ⟨200, [], fun _ => "", 1⟩)
        "p" "http://example.com/plain" false initState).requests = initState.requests ∨
     (testLinkRun { queryHashes := true } (constLinkEnv ⟨200, [], fun _ => "", 1⟩)
        "p" "http://example.com/plain" false initState).requests =
       initState.requests ++ [(Method.get, fixNonAsciiLink "http://example.com/plain")]) :=
  ⟨rfl, c10_queryHashes_forces_get { queryHashes := true }
    (constLinkEnv ⟨200, [], fun _ => "", 1⟩) "p" "http://example.com/plain" false initState rfl⟩

/-! ## Claim C3 -/

/-- C3: a fresh link check in probe mode whose HEAD response is non-2xx is
retried exactly once, as a full GET on the same request URI; when that GET
returns 2xx the link passes — the final state is given exactly: the pass is
logged and no Issue is recorded beyond the independent policy issues (the
pre-dedup empty-fragment Issue and the per-attempt local-link Issue, which
fires once per constructed request and hence twice here).  In particular,
with those policies at their defaults, probe 500 then full 200 yields zero
Issues for the link. -/
theorem c3_probe_retry_as_get (opts : Options) (env : Env) (page link : String) (s : RunState)
    (r1 r2 : LinkResponse)
    (hq : opts.queryHashes = false)
    (hH : env.linkReq Method.head (fixNonAsciiLink link) = Except.ok r1)
    (hns : ¬(200 ≤ r1.statusCode ∧ r1.statusCode < 300))
    (hG : env.linkReq Method.get (fixNonAsciiLink link) = Except.ok r2)
    (hok : 200 ≤ r2.statusCode ∧ r2.statusCode < 300)
    (hfresh : stripFragment link ∉ s.testedLinks) :
    (testLinkRun opts env page link false s =
      { s with
        testedLinks := s.testedLinks ++ [stripFragment link],
        issues := s.issues ++
          (if opts.noEmptyFragments && decide ((urlParse link).hash = some "#") then
            [(page, "Empty fragment: " ++ link)] else []) ++
          (if opts.noLocalLinks && localhostTest ((urlParse (fixNonAsciiLink link)).host.getD "")
            then [(page, "Local link: " ++ link)] else []) ++
          (if opts.noLocalLinks && localhostTest ((urlParse (fixNonAsciiLink link)).host.getD "")
            then [(page, "Local link: " ++ link)] else []),
        errors := s.errors ++
          (if opts.noEmptyFragments && decide ((urlParse link).hash = some "#") then
            ["Empty fragment: " ++ link] else []) ++
          (if opts.noLocalLinks && localhostTest ((urlParse (fixNonAsciiLink link)).host.getD "")
            then ["Local link: " ++ link] else []) ++
          (if opts.noLocalLinks && localhostTest ((urlParse (fixNonAsciiLink link)).host.getD "")
            then ["Local link: " ++ link] else []),
        log := s.log ++ ["Link: " ++ link ++ " (" ++ toString r2.elapsed ++ "ms)"],
        requests := s.requests ++ [(Method.head, fixNonAsciiLink link),
                                   (Method.get, fixNonAsciiLink link)] }) ∧
    (opts.noEmptyFragments = false → opts.noLocalLinks = false →
      (testLinkRun opts env page link false s).issues = s.issues) := by
  refine ⟨?_, ?_⟩
  · simp only [testLinkRun, Bool.false_eq_true, if_false]
    by_cases hef : (opts.noEmptyFragments && decide ((urlParse link).hash = some "#")) = true <;>
      by_cases hll : (opts.noLocalLinks &&
        localhostTest ((urlParse (fixNonAsciiLink link)).host.getD "")) = true <;>
      simp only [hef, hll, Bool.false_eq_true, if_true, if_false, logPageError, hfresh,
        testLinkDispatch, testLinkAttempt, linkHashSpec, hq, Bool.or_false, Bool.false_or,
        Bool.true_or, if_true, hH, hG] <;>
      simp [hns, hok, hll, List.append_assoc]
  · intro hnef hnll
    have hef : (opts.noEmptyFragments && decide ((urlParse link).hash = some "#")) = false := by
      simp [hnef]
    have hll : (opts.noLocalLinks &&
        localhostTest ((urlParse (fixNonAsciiLink link)).host.getD "")) = false := by
      simp [hnll]
    simp only [testLinkRun, Bool.false_eq_true, if_false]
    simp only [hef, Bool.false_eq_true, if_false, hfresh, if_true, testLinkDispatch,
      testLinkAttempt, linkHashSpec, hq, Bool.or_false, Bool.false_or, Bool.true_or,
      if_true, hH, hG, hll]
    simp [hns, hok, hll]

/-- C3 witness: probe 500 then full 200 on a concrete link — two requests
(HEAD then GET on the same URI), a pass log line, and zero Issues. -/
theorem c3_probe_retry_as_get_witness :
    testLinkRun {} (headGetEnv ⟨500, [], fun _ => "", 5⟩ ⟨200, [], fun _ => "", 7⟩)
        "p" "http://example.com/a" false initState =
      { testedLinks := ["http://example.com/a"],
        log := ["Link: http://example.com/a (7ms)"],
        requests := [(Method.head, "http://example.com/a"),
                     (Method.get, "http://example.com/a")] } ∧
    (testLinkRun {} (headGetEnv ⟨500, [], fun _ => "", 5⟩ ⟨200, [], fun _ => "", 7⟩)
        "p" "http://example.com/a" false initState).issues = [] := by
  have h := c3_probe_retry_as_get {} (headGetEnv ⟨500, [], fun _ => "", 5⟩ ⟨200, [], fun _ => "", 7⟩)
    "p" "http://example.com/a" initState ⟨500, [], fun _ => "", 5⟩ ⟨200, [], fun _ => "", 7⟩
    rfl rfl (by decide) rfl (by decide) (by decide)
  exact ⟨h.1.trans (by decide), h.2 rfl rfl⟩

/-- C1 witness: a visited link (dedup hit) leaves the state untouched except
for the visited log line, and a fresh link is inserted into the dedup list. -/
theorem c1_dedup_at_most_once_witness :
    testLinkRun {} (constLinkEnv ⟨200, [], fun _ => "", 1⟩) "p" "http://example.com/a#f" false
        { testedLinks := ["http://example.com/a"] } =
      { testedLinks := ["http://example.com/a"],
        log := ["Visited link: http://example.com/a#f"] } ∧
    (testLinkRun {} (constLinkEnv ⟨200, [], fun _ => "", 1⟩) "p" "http://example.com/b" false
        { testedLinks := ["http://example.com/a"] }).testedLinks =
      ["http://example.com/a", "http://example.com/b"] := by
  constructor
  · have h := (c1_dedup_at_most_once {} (constLinkEnv ⟨200, [], fun _ => "", 1⟩) "p"
      "http://example.com/a#f" false { testedLinks := ["http://example.com/a"] }).2.1
      rfl (by decide)
    exact h.trans (by decide)
  · have h := ((c1_dedup_at_most_once {} (constLinkEnv ⟨200, [], fun _ => "", 1⟩) "p"
      "http://example.com/b" false { testedLinks := ["http://example.com/a"] }).2.2
      rfl (by decide)).2.2
    exact h.trans (by decide)

/-! ## Claim C4 -/

/-- C4: a link check carrying an expected hash (first truthy of the `sha1`,
`md5`, `crc32` query parameters) whose GET response is 2xx compares the
digest computed over the response body with the expected value
case-insensitively (both sides upper-cased).  On a match a hash-confirmation
line is logged after the pass line and no Issue is recorded (beyond the
independent local-link policy Issue); on a mismatch exactly one "Hash error"
Issue is recorded, whose message embeds the actual computed digest
lower-cased. -/
theorem c4_hash_verification (opts : Options) (env : Env) (page link : String)
    (retry : Bool) (s : RunState) (res : LinkResponse) (alg : HashAlg) (expected : String)
    (hspec : linkHashSpec opts link = some (alg, expected))
    (hG : env.linkReq Method.get (fixNonAsciiLink link) = Except.ok res)
    (hok : 200 ≤ res.statusCode ∧ res.statusCode < 300) :
    (asciiUpper expected = asciiUpper (res.bodyDigest alg) →
      testLinkDispatch opts env page link retry s =
        { s with
          requests := s.requests ++ [(Method.get, fixNonAsciiLink link)],
          issues := s.issues ++
            (if opts.noLocalLinks && localhostTest ((urlParse (fixNonAsciiLink link)).host.getD "")
              then [(page, "Local link: " ++ link)] else []),
          errors := s.errors ++
            (if opts.noLocalLinks && localhostTest ((urlParse (fixNonAsciiLink link)).host.getD "")
              then ["Local link: " ++ link] else []),
          log := s.log ++ ["Link: " ++ link ++ " (" ++ toString res.elapsed ++ "ms)",
                           "Hash: " ++ link] }) ∧
    (asciiUpper expected ≠ asciiUpper (res.bodyDigest alg) →
      testLinkDispatch opts env page link retry s =
        { s with
          requests := s.requests ++ [(Method.get, fixNonAsciiLink link)],
          issues := s.issues ++
            (if opts.noLocalLinks && localhostTest ((urlParse (fixNonAsciiLink link)).host.getD "")
              then [(page, "Local link: " ++ link)] else []) ++
            [(page, "Hash error (" ++ asciiLower (res.bodyDigest alg) ++ "): " ++ link)],
          errors := s.errors ++
            (if opts.noLocalLinks && localhostTest ((urlParse (fixNonAsciiLink link)).host.getD "")
              then ["Local link: " ++ link] else []) ++
            ["Hash error (" ++ asciiLower (res.bodyDigest alg) ++ "): " ++ link],
          log := s.log ++ ["Link: " ++ link ++ " (" ++ toString res.elapsed ++ "ms)"] }) := by
  have hq := linkHashSpec_some_queryHashes opts link (alg, expected) hspec
  constructor
  · intro hmatch
    by_cases hll : (opts.noLocalLinks &&
        localhostTest ((urlParse (fixNonAsciiLink link)).host.getD "")) = true <;>
      simp only [testLinkDispatch, testLinkAttempt, hspec, hq, Bool.or_true, if_true,
        hG, logPageError, hll, Bool.false_eq_true, if_false] <;>
      simp [hok, hmatch, hll, List.append_assoc]
  · intro hmiss
    by_cases hll : (opts.noLocalLinks &&
        localhostTest ((urlParse (fixNonAsciiLink link)).host.getD "")) = true <;>
      simp only [testLinkDispatch, testLinkAttempt, hspec, hq, Bool.or_true, if_true,
        hG, logPageError, hll, Bool.false_eq_true, if_false] <;>
      simp [hok, hmiss, hll, List.append_assoc]

/-- C4 witness: a concrete sha1-tagged link whose body digest matches the
expected hash case-insensitively passes with a hash-confirmation line, and
one whose digest differs records exactly the "Hash error" Issue with the
lower-cased actual digest. -/
theorem c4_hash_verification_witness :
    testLinkDispatch { queryHashes := true } (constLinkEnv ⟨200, [], fun _ => "aBc123", 2⟩)
        "p" "http://e.com/f.zip?sha1=ABC123" false initState =
      { requests := [(Method.get, "http://e.com/f.zip?sha1=ABC123")],
        log := ["Link: http://e.com/f.zip?sha1=ABC123 (2ms)",
                "Hash: http://e.com/f.zip?sha1=ABC123"] } ∧
    testLinkDispatch { queryHashes := true } (constLinkEnv ⟨200, [], fun _ => "aBc123", 2⟩)
        "p" "http://e.com/f.zip?sha1=FF" false initState =
      { requests := [(Method.get, "http://e.com/f.zip?sha1=FF")],
        issues := [("p", "Hash error (abc123): http://e.com/f.zip?sha1=FF")],
        errors := ["Hash error (abc123): http://e.com/f.zip?sha1=FF"],
        log := ["Link: http://e.com/f.zip?sha1=FF (2ms)"] } := by
  constructor
  · have h := (c4_hash_verification { queryHashes := true }
      (constLinkEnv ⟨200, [], fun _ => "aBc123", 2⟩) "p" "http://e.com/f.zip?sha1=ABC123"
      false initState ⟨200, [], fun _ => "aBc123", 2⟩ HashAlg.sha1 "ABC123"
      (by decide) rfl (by decide)).1 (by decide)
    exact h.trans (by decide)
  · have h := (c4_hash_verification { queryHashes := true }
      (constLinkEnv ⟨200, [], fun _ => "aBc123", 2⟩) "p" "http://e.com/f.zip?sha1=FF"
      false initState ⟨200, [], fun _ => "aBc123", 2⟩ HashAlg.sha1 "FF"
      (by decide) rfl (by decide)).2 (by decide)
    exact h.trans (by decide)

/-! ## Claim C5 -/

/-- C5 (amended): with `noRedirects` on, a link check in full-request mode
whose response status is 3xx records exactly one "Redirected link" Issue
naming the response's `Location` header value when that value is JS-truthy
(present and non-empty) — and the explicit marker
`[Missing Location header]` when the header is absent *or empty* — while
any other non-2xx status records a "Bad link" Issue instead (the
independent local-link policy Issue may precede either). -/
theorem c5_redirected_link (opts : Options) (env : Env) (page link : String)
    (retry : Bool) (s : RunState) (res : LinkResponse)
    (hnr : opts.noRedirects = true)
    (hfull : (retry || opts.queryHashes) = true)
    (hG : env.linkReq Method.get (fixNonAsciiLink link) = Except.ok res) :
    ((300 ≤ res.statusCode ∧ res.statusCode < 400) →
      testLinkDispatch opts env page link retry s =
        { s with
          requests := s.requests ++ [(Method.get, fixNonAsciiLink link)],
          issues := s.issues ++
            (if opts.noLocalLinks && localhostTest ((urlParse (fixNonAsciiLink link)).host.getD "")
              then [(page, "Local link: " ++ link)] else []) ++
            [(page, "Redirected link (" ++ toString res.statusCode ++ "): " ++ link ++ " -> " ++
              (if jsTruthy (getHeader res.headers "location") then
                (getHeader res.headers "location").getD ""
              else "[Missing Location header]") ++
              " (" ++ toString res.elapsed ++ "ms)")],
          errors := s.errors ++
            (if opts.noLocalLinks && localhostTest ((urlParse (fixNonAsciiLink link)).host.getD "")
              then ["Local link: " ++ link] else []) ++
            ["Redirected link (" ++ toString res.statusCode ++ "): " ++ link ++ " -> " ++
              (if jsTruthy (getHeader res.headers "location") then
                (getHeader res.headers "location").getD ""
              else "[Missing Location header]") ++
              " (" ++ toString res.elapsed ++ "ms)"] }) ∧
    (¬(200 ≤ res.statusCode ∧ res.statusCode < 300) →
     ¬(300 ≤ res.statusCode ∧ res.statusCode < 400) →
      testLinkDispatch opts env page link retry s =
        { s with
          requests := s.requests ++ [(Method.get, fixNonAsciiLink link)],
          issues := s.issues ++
            (if opts.noLocalLinks && localhostTest ((urlParse (fixNonAsciiLink link)).host.getD "")
              then [(page, "Local link: " ++ link)] else []) ++
            [(page, "Bad link (" ++ toString res.statusCode ++ "): " ++ link ++
              " (" ++ toString res.elapsed ++ "ms)")],
          errors := s.errors ++
            (if opts.noLocalLinks && localhostTest ((urlParse (fixNonAsciiLink link)).host.getD "")
              then ["Local link: " ++ link] else []) ++
            ["Bad link (" ++ toString res.statusCode ++ "): " ++ link ++
              " (" ++ toString res.elapsed ++ "ms)"] }) := by
  constructor
  · intro h3
    have h2 : ¬(200 ≤ res.statusCode ∧ res.statusCode < 300) := by omega
    by_cases hll : (opts.noLocalLinks &&
        localhostTest ((urlParse (fixNonAsciiLink link)).host.getD "")) = true <;>
      simp only [testLinkDispatch, testLinkAttempt, hfull, if_true, hG, logPageError,
        hll, Bool.false_eq_true, if_false] <;>
      simp [h2, h3, hnr, hll, List.append_assoc]
  · intro h2 h3
    by_cases hll : (opts.noLocalLinks &&
        localhostTest ((urlParse (fixNonAsciiLink link)).host.getD "")) = true <;>
      simp only [testLinkDispatch, testLinkAttempt, hfull, if_true, hG, logPageError,
        hll, Bool.false_eq_true, if_false] <;>
      simp [h2, h3, hnr, hll, List.append_assoc]

/-- C5 counterexample to the claim as stated: a 302 whose `Location` header
is present but empty still names the `[Missing Location header]` marker —
not the header's (empty) value — because JS `||` treats the empty string as
falsy; so the marker is not reserved for an absent header. -/
theorem c5_empty_location_counterexample :
    getHeader [("location", "")] "location" = some "" ∧
    testLinkDispatch { noRedirects := true }
        (constLinkEnv ⟨302, [("location", "")], fun _ => "", 4⟩)
        "p" "http://example.com/a" true initState =
      { requests := [(Method.get, "http://example.com/a")],
        issues := [("p",
          "Redirected link (302): http://example.com/a -> [Missing Location header] (4ms)")],
        errors :=
          ["Redirected link (302): http://example.com/a -> [Missing Location header] (4ms)"] } ∧
    ¬((testLinkDispatch { noRedirects := true }
        (constLinkEnv ⟨302, [("location", "")], fun _ => "", 4⟩)
        "p" "http://example.com/a" true initState).issues =
      [("p", "Redirected link (302): http://example.com/a ->  (4ms)")]) := by
  refine ⟨by decide, by decide, by decide⟩

/-- C5 witness: a 301 with `Location: /x` yields exactly one "Redirected
link" Issue naming `/x`; a 302 without a `Location` header, and one whose
`Location` header is present but empty, both name the missing-header
marker; a 404 yields a "Bad link" Issue. -/
theorem c5_redirected_link_witness :
    testLinkDispatch { noRedirects := true } (constLinkEnv ⟨301, [("location", "/x")], fun _ => "", 4⟩)
        "p" "http://example.com/a" true initState =
      { requests := [(Method.get, "http://example.com/a")],
        issues := [("p", "Redirected link (301): http://example.com/a -> /x (4ms)")],
        errors := ["Redirected link (301): http://example.com/a -> /x (4ms)"] } ∧
    testLinkDispatch { noRedirects := true } (constLinkEnv ⟨302, [], fun _ => "", 4⟩)
        "p" "http://example.com/a" true initState =
      { requests := [(Method.get, "http://example.com/a")],
        issues := [("p", "Redirected link (302): http://example.com/a -> [Missing Location header] (4ms)")],
        errors := ["Redirected link (302): http://example.com/a -> [Missing Location header] (4ms)"] } ∧
    testLinkDispatch { noRedirects := true } (constLinkEnv ⟨303, [("location", "")], fun _ => "", 4⟩)
        "p" "http://example.com/a" true initState =
      { requests := [(Method.get, "http://example.com/a")],
        issues := [("p", "Redirected link (303): http://example.com/a -> [Missing Location header] (4ms)")],
        errors := ["Redirected link (303): http://example.com/a -> [Missing Location header] (4ms)"] } ∧
    testLinkDispatch { noRedirects := true } (constLinkEnv ⟨404, [], fun _ => "", 4⟩)
        "p" "http://example.com/a" true initState =
      { requests := [(Method.get, "http://example.com/a")],
        issues := [("p", "Bad link (404): http://example.com/a (4ms)")],
        errors := ["Bad link (404): http://example.com/a (4ms)"] } := by
  refine ⟨?_, ?_, ?_, ?_⟩
  · have h := (c5_redirected_link { noRedirects := true }
      (constLinkEnv ⟨301, [("location", "/x")], fun _ => "", 4⟩) "p" "http://example.com/a"
      true initState ⟨301, [("location", "/x")], fun _ => "", 4⟩ rfl rfl rfl).1 (by decide)
    exact h.trans (by decide)
  · have h := (c5_redirected_link { noRedirects := true }
      (constLinkEnv ⟨302, [], fun _ => "", 4⟩) "p" "http://example.com/a"
      true initState ⟨302, [], fun _ => "", 4⟩ rfl rfl rfl).1 (by decide)
    exact h.trans (by decide)
  · have h := (c5_redirected_link { noRedirects := true }
      (constLinkEnv ⟨303, [("location", "")], fun _ => "", 4⟩) "p" "http://example.com/a"
      true initState ⟨303, [("location", "")], fun _ => "", 4⟩ rfl rfl rfl).1 (by decide)
    exact h.trans (by decide)
  · have h := (c5_redirected_link { noRedirects := true }
      (constLinkEnv ⟨404, [], fun _ => "", 4⟩) "p" "http://example.com/a"
      true initState ⟨404, [], fun _ => "", 4⟩ rfl rfl rfl).2 (by decide) (by decide)
    exact h.trans (by decide)

/-! ## Claim C6 -/

/-- The function `listInfix` decides the infix relation. -/
theorem listInfix_iff (t s : List Char) : listInfix t s = true ↔ t <:+: s := by
  induction s with
  | nil =>
    simp [listInfix, List.isEmpty_iff]
  | cons c cs ih =>
    simp [listInfix, List.isPrefixOf_iff_prefix, ih, List.infix_cons_iff]

/-- A substring test is monotone in the pattern: a prefix of a found pattern
is also found. -/
theorem containsSub_mono (s t u : String) (h : t.toList <+: u.toList)
    (hc : containsSub s u = true) : containsSub s t = true := by
  rw [containsSub, listInfix_iff] at hc ⊢
  exact h.isInfix.trans hc

/-- A Cache-Control value containing `no-cache` or `max-age=0` passes the
directive-vocabulary test. -/
theorem ccVocab_of_noCache (cc : String) (h : ccNoCache cc = true) : ccVocab cc = true := by
  simp only [ccNoCache, Bool.or_eq_true] at h
  rcases h with h1 | h1
  · simp only [ccVocab, List.any_eq_true]
    exact ⟨"no-cache", by decide, h1⟩
  · simp only [ccVocab, List.any_eq_true]
    exact ⟨"max-age", by decide, containsSub_mono cc "max-age" "max-age=0" (by decide) h1⟩

/-- C6 (amended): with `checkCaching` on (and the other page checks at their
defaults), for a 2xx page response without an `ETag` header:
a Cache-Control value containing `no-cache` or `max-age=0` yields zero
Issues (the ETag requirement is waived for non-cacheable responses), while
the absence of a Cache-Control header yields exactly two Issues — "Missing
Cache-Control header in response" and "Missing ETag header in response"
(the ETag exemption does not apply when Cache-Control is absent). -/
theorem c6_caching_checks (opts : Options) (env : Env) (page : String) (s : RunState)
    (res : PageResponse)
    (hcache : opts.checkCaching = true) (hx : opts.checkXhtml = false)
    (hcomp : opts.checkCompression = false) (hmrt : opts.maxResponseTime = none)
    (hres : env.pageGet (fixNonAsciiLink page) = Except.ok res)
    (h2 : ¬(res.statusCode < 200 ∨ 300 ≤ res.statusCode))
    (hetag : getHeader res.headers "etag" = none) :
    (∀ cc, getHeader res.headers "cache-control" = some cc → cc ≠ "" →
      ccNoCache cc = true →
      (testPageRun opts env page s).1.issues = s.issues) ∧
    (getHeader res.headers "cache-control" = none →
      (testPageRun opts env page s).1.issues =
        s.issues ++ [(page, "Missing Cache-Control header in response"),
                     (page, "Missing ETag header in response")]) := by
  constructor
  · intro cc hcc hccne hnc
    have hv := ccVocab_of_noCache cc hnc
    simp only [testPageRun, hres]
    rw [if_neg h2]
    by_cases hrd : page = res.href <;>
      simp [hrd, hx, hcomp, hmrt, hcache, hcc, hetag, jsTruthy, hccne, hv, hnc, logPageError]
  · intro hccnone
    simp only [testPageRun, hres]
    rw [if_neg h2]
    by_cases hrd : page = res.href <;>
      simp [hrd, hx, hcomp, hmrt, hcache, hccnone, hetag, jsTruthy, logPageError]

/-- C6 counterexample to the claim as stated: a 2xx response with no
Cache-Control header and no ETag yields two Issues (Missing Cache-Control
and Missing ETag), not exactly one. -/
theorem c6_missing_both_counterexample :
    (testPageRun { checkCaching := true } (constPageEnv ⟨200, [], "http://e.com/p", [], [], 1⟩)
        "http://e.com/p" initState).1.issues =
      [("http://e.com/p", "Missing Cache-Control header in response"),
       ("http://e.com/p", "Missing ETag header in response")] ∧
    ¬((testPageRun { checkCaching := true } (constPageEnv ⟨200, [], "http://e.com/p", [], [], 1⟩)
        "http://e.com/p" initState).1.issues.length = 1) := by
  constructor
  · decide
  · decide

/-- C6 witness: the two amended scenarios at concrete inputs — zero Issues
with `Cache-Control: no-cache` and no ETag; the two missing-header Issues
with neither header. -/
theorem c6_caching_checks_witness :
    (testPageRun { checkCaching := true }
        (constPageEnv ⟨200, [("cache-control", "no-cache")], "http://e.com/p", [], [], 1⟩)
        "http://e.com/p" initState).1.issues = initState.issues ∧
    (testPageRun { checkCaching := true }
        (constPageEnv ⟨200, [], "http://e.com/q", [], [], 1⟩)
        "http://e.com/q" initState).1.issues =
      initState.issues ++ [("http://e.com/q", "Missing Cache-Control header in response"),
                           ("http://e.com/q", "Missing ETag header in response")] := by
  constructor
  · exact (c6_caching_checks { checkCaching := true }
      (constPageEnv ⟨200, [("cache-control", "no-cache")], "http://e.com/p", [], [], 1⟩)
      "http://e.com/p" initState ⟨200, [("cache-control", "no-cache")], "http://e.com/p", [], [], 1⟩
      rfl rfl rfl rfl rfl (by decide) (by decide)).1 "no-cache" (by decide) (by decide) (by decide)
  · exact (c6_caching_checks { checkCaching := true }
      (constPageEnv ⟨200, [], "http://e.com/q", [], [], 1⟩)
      "http://e.com/q" initState ⟨200, [], "http://e.com/q", [], [], 1⟩
      rfl rfl rfl rfl rfl (by decide) (by decide)).2 (by decide)

/-! ## Claim C7 -/

/-- C7: the element/attribute pairs the link extractor actually walks are
the thirteen listed in the code — `img`/`srcset`, `source`/`srcset` and
`video`/`poster` are absent, although the repository's README documents
them — and, concretely, a page carrying `<video poster="x.jpg">` and
`<img src="y.png" srcset="z.png 2x">` schedules a link check only for the
`img`/`src` URL. -/
theorem c7_tracked_pairs_eval :
    linkElementAttributePairs =
      [("a", "href"), ("area", "href"), ("audio", "src"), ("embed", "src"),
       ("iframe", "src"), ("img", "src"), ("input", "src"), ("link", "href"),
       ("object", "data"), ("script", "src"), ("source", "src"), ("track", "src"),
       ("video", "src")] ∧
    (("img", "srcset") ∉ linkElementAttributePairs ∧
     ("source", "srcset") ∉ linkElementAttributePairs ∧
     ("video", "poster") ∉ linkElementAttributePairs) ∧
    (testPageRun { checkLinks := true }
        (constPageEnv ⟨200, [], "http://e.com/p",
          [⟨"video", [("poster", "x.jpg")]⟩, ⟨"img", [("src", "y.png"), ("srcset", "z.png 2x")]⟩],
          [], 1⟩)
        "http://e.com/p" initState).2 =
      [("http://e.com/p", "http://e.com/y.png")] := by
  refine ⟨rfl, by decide, by decide⟩

/-! ## Claim C8 -/

/-- C8 (amended): a link check records a "Local link" Issue exactly when the
local-link policy is on, a request is actually constructed (the check is a
retry or the target is not yet in the dedup list), and the request host
matches the case-insensitive localhost regex — which accepts every host
*beginning* with `localhost`, *containing* `127.` followed by three
dot-separated runs of 1-3 digits, or *ending* with a bracketed
`[0:]*:[0:]*:0?0?0?1` group, a superset of the recognized localhost forms.
The right-hand side does not mention the response: the Issue is independent
of, and in addition to, the link's PASS/FAIL outcome. -/
theorem c8_local_link_regex (opts : Options) (env : Env) (page link : String)
    (retry : Bool) (s : RunState) :
    ((page, "Local link: " ++ link) ∈ (testLinkRun opts env page link retry s).issues) ↔
      ((page, "Local link: " ++ link) ∈ s.issues ∨
        (opts.noLocalLinks = true ∧
          localhostTest ((urlParse (fixNonAsciiLink link)).host.getD "") = true ∧
          (retry = true ∨ stripFragment link ∉ s.testedLinks))) := by
  cases retry with
  | true =>
    simp only [testLinkRun, if_true]
    rw [testLinkDispatch_local_mem]
    simp
  | false =>
    simp only [testLinkRun, Bool.false_eq_true, if_false]
    by_cases hef : (opts.noEmptyFragments && decide ((urlParse link).hash = some "#")) = true <;>
      simp only [hef, Bool.false_eq_true, if_true, if_false, logPageError] <;>
      by_cases hmem : stripFragment link ∈ s.testedLinks <;>
      simp only [hmem, if_true, if_false] <;>
      simp [testLinkDispatch_local_mem, List.mem_append, String.append_assoc,
        local_ne_emptyfrag, hmem]

/-- C8 counterexample to the claim as stated: the host
`localhost.example.com` is none of the recognized localhost forms, yet with
`noLocalLinks` on a link to it records a "Local link" Issue (the regex
anchors `^` only to its first alternative). -/
theorem c8_local_link_counterexample :
    specRecognizedLocalhost "localhost.example.com" = false ∧
    (urlParse "http://localhost.example.com/x").host = some "localhost.example.com" ∧
    (testLinkRun { noLocalLinks := true } (constLinkEnv ⟨200, [], fun _ => "", 1⟩)
        "p" "http://localhost.example.com/x" false initState).issues =
      [("p", "Local link: http://localhost.example.com/x")] := by
  refine ⟨by decide, by decide, by decide⟩

/-! ## Claim C2 -/

/-- Draining a block of link items at the front of the worklist: they are
processed one at a time, in order, before anything queued behind them. -/
theorem runQueueF_links (opts : Options) (env : Env) (pairs : List (String × String))
    (rest : List WorkItem) (n : Nat) (s : RunState) :
    runQueueF opts env (pairs.length + n)
        (pairs.map (fun pl => WorkItem.link pl.1 pl.2) ++ rest) s =
      ⟨(runQueueF opts env n rest
          (pairs.foldl (fun st pl => testLinkRun opts env pl.1 pl.2 false st) s)).state,
       pairs.map (fun pl => WorkItem.link pl.1 pl.2) ++
         (runQueueF opts env n rest
           (pairs.foldl (fun st pl => testLinkRun opts env pl.1 pl.2 false st) s)).trace,
       (runQueueF opts env n rest
         (pairs.foldl (fun st pl => testLinkRun opts env pl.1 pl.2 false st) s)).finals⟩ := by
  induction pairs generalizing s with
  | nil => simp
  | cons p ps ih =>
    have harith : (p :: ps).length + n = (ps.length + n) + 1 := by
      simp only [List.length_cons]
      omega
    rw [harith]
    simp only [List.map_cons, List.cons_append, List.foldl_cons, runQueueF]
    simp [ih]

/-- Draining the initial worklist: the processed trace is each page followed
immediately by all of its own spliced link checks, in order, and the `done`
callback runs exactly once, at the very end. -/
theorem runQueueF_full_trace (opts : Options) (env : Env) (pages : List String)
    (s : RunState) :
    ∃ sf, runQueue opts env (initialQueue pages) s =
      ⟨sf,
       pages.flatMap (fun p => WorkItem.page p ::
         (pageLinkPairs opts env p).map (fun pl => WorkItem.link pl.1 pl.2)) ++
         [WorkItem.final],
       1⟩ := by
  unfold runQueue initialQueue
  induction pages generalizing s with
  | nil =>
    exact ⟨finalize opts s, by simp [queueWeight, itemWeight, runQueueF]⟩
  | cons p ps ih =>
    rw [List.map_cons, List.cons_append]
    have hw : queueWeight opts env
          (WorkItem.page p :: (ps.map WorkItem.page ++ [WorkItem.final])) =
        ((pageLinkPairs opts env p).length +
          queueWeight opts env (ps.map WorkItem.page ++ [WorkItem.final])) + 1 := by
      simp only [queueWeight, List.map_cons, List.sum_cons, itemWeight]
      omega
    rw [hw]
    simp only [runQueueF, testPageRun_snd]
    rw [runQueueF_links]
    obtain ⟨sf, hf⟩ := ih
      ((pageLinkPairs opts env p).foldl
        (fun st pl => testLinkRun opts env pl.1 pl.2 false st) (testPageRun opts env p s).1)
    rw [hf]
    exact ⟨sf, by simp⟩

/-- C2: the worklist is processed one item at a time from the front, and a
page's link checks are spliced ahead of all subsequently queued page checks:
the processed trace is exactly each page followed by all of its own link
checks, in queue order, with the final aggregation callback as the very last
item — it runs exactly once, when the worklist is empty. -/
theorem c2_queue_fifo_links_first_final_once (opts : Options) (env : Env)
    (pages : List String) :
    (checkPagesRun opts env pages).trace =
      pages.flatMap (fun p => WorkItem.page p ::
        (pageLinkPairs opts env p).map (fun pl => WorkItem.link pl.1 pl.2)) ++
        [WorkItem.final] ∧
    (checkPagesRun opts env pages).finals = 1 ∧
    (checkPagesRun opts env pages).trace.getLast? = some WorkItem.final := by
  obtain ⟨sf, hf⟩ := runQueueF_full_trace opts env pages initState
  refine ⟨?_, ?_, ?_⟩ <;> simp [checkPagesRun, hf, List.getLast?_concat]

end CheckPages
